import Mathlib

/-!
Verification of the metadata-field extractor described by this repository's
metadata-type schema (`scripts/data/eo3_landsat_ard.odc-type.yaml`).

The repository ships the declarative schema (a YAML metadata type) but not the
resolver that consumes it; the resolver's behaviour is specified in the
repository's design document.  The definitions below therefore model the
resolver from the spec's words (each such definition says so in its doc
comment), while the shipped schema itself is transcribed verbatim from the
YAML file.
-/

namespace Eo3

/-- A scalar value stored at a leaf of a dataset document (model of a YAML/JSON
scalar: string, number, or null).  Numbers are modelled as integers scaled by
no fixed factor; only their identity matters to resolution. -/
inductive JVal where
  | str (s : String)
  | num (n : Int)
  | null
  deriving DecidableEq, Repr

/-- Modelled from the spec: a dataset document is "an arbitrary nested mapping
(the indexed record)".  A document is a scalar leaf or a mapping from string
keys to sub-documents. -/
inductive Doc where
  | val (v : JVal)
  | map (entries : List (String × Doc))
  deriving Repr

/-- Look a key up in a mapping's entry list (first matching key wins). -/
def lookupDoc : List (String × Doc) → String → Option Doc
  | [], _ => none
  | (l, d) :: es, k => if l = k then some d else lookupDoc es k

/-- Modelled from the spec: `resolve_offset(document, offset)` "walks the
document one key at a time; at each step, if the current value is a mapping
and contains the next key, descend; otherwise resolution fails.  Returns the
final value on full traversal, or unresolved (`none`) if any step fails." -/
def resolve_offset : Doc → List String → Option Doc
  | d, [] => some d
  | Doc.val _, _ :: _ => none
  | Doc.map es, k :: ks =>
    match lookupDoc es k with
    | none => none
    | some sub => resolve_offset sub ks

/-- The declarative descent relation: `Reaches d off v` holds exactly when
descending `d` one key of `off` at a time reaches `v`. -/
inductive Reaches : Doc → List String → Doc → Prop where
  | refl (d : Doc) : Reaches d [] d
  | step {es : List (String × Doc)} {k : String} {sub v : Doc} {ks : List String} :
      lookupDoc es k = some sub → Reaches sub ks v → Reaches (Doc.map es) (k :: ks) v

theorem reaches_of_resolve {d : Doc} {off : List String} {v : Doc}
    (h : resolve_offset d off = some v) : Reaches d off v := by
  induction off generalizing d with
  | nil =>
    simp only [resolve_offset, Option.some.injEq] at h
    exact h ▸ Reaches.refl d
  | cons k ks ih =>
    cases d with
    | val w => simp [resolve_offset] at h
    | map es =>
      simp only [resolve_offset] at h
      cases hl : lookupDoc es k with
      | none => rw [hl] at h; exact absurd h (by simp)
      | some sub => rw [hl] at h; exact Reaches.step hl (ih h)

theorem resolve_of_reaches {d : Doc} {off : List String} {v : Doc}
    (h : Reaches d off v) : resolve_offset d off = some v := by
  induction h with
  | refl d => simp [resolve_offset]
  | step hl _ ih => simp only [resolve_offset]; rw [hl]; exact ih

/-- C1: for every document and offset, `resolve_offset` is a total function
(its Lean type is `Doc → List String → Option Doc`, so it can signal no
exception) and it returns `some v` exactly when descending the document key by
key reaches `v`, and `none` ("unresolved") exactly when no value is reached —
i.e. when at some step the current value is not a mapping containing the next
key. -/
theorem resolve_offset_total_correct (d : Doc) (off : List String) :
    (∀ v, resolve_offset d off = some v ↔ Reaches d off v) ∧
      (resolve_offset d off = none ↔ ∀ v, ¬ Reaches d off v) := by
  refine ⟨fun v => ⟨reaches_of_resolve, resolve_of_reaches⟩, ?_, ?_⟩
  · intro hnone v hr
    rw [resolve_of_reaches hr] at hnone
    exact Option.noConfusion hnone
  · intro hno
    cases hres : resolve_offset d off with
    | none => rfl
    | some v => exact absurd (reaches_of_resolve hres) (hno v)

/-- Replace the value stored at `k` in an entry list (first occurrence),
leaving the list unchanged when `k` is absent. -/
def updateEntry : List (String × Doc) → String → Doc → List (String × Doc)
  | [], _, _ => []
  | (l, d) :: es, k, d' => if l = k then (l, d') :: es else (l, d) :: updateEntry es k d'

/-- Modelled from the spec: the offset walk written as a state transformer on
the document, the style an in-place implementation would use.  It returns the
resolved value together with the document after the walk, rebuilding every
mapping it descended through; the frame theorem shows the returned document is
always the input document. -/
def walk : Doc → List String → Option Doc × Doc
  | d, [] => (some d, d)
  | Doc.val v, _ :: _ => (none, Doc.val v)
  | Doc.map es, k :: ks =>
    match lookupDoc es k with
    | none => (none, Doc.map es)
    | some sub =>
      match walk sub ks with
      | (res, sub') => (res, Doc.map (updateEntry es k sub'))

theorem updateEntry_lookup_self {es : List (String × Doc)} {k : String} {sub : Doc}
    (h : lookupDoc es k = some sub) : updateEntry es k sub = es := by
  induction es with
  | nil => simp [lookupDoc] at h
  | cons e es ih =>
    obtain ⟨l, d⟩ := e
    by_cases hk : l = k
    · subst hk
      simp only [lookupDoc, if_pos rfl] at h
      cases h
      simp [updateEntry]
    · simp only [lookupDoc, if_neg hk] at h
      simp [updateEntry, hk, ih h]

theorem walk_frame (d : Doc) (off : List String) :
    walk d off = (resolve_offset d off, d) := by
  induction off generalizing d with
  | nil => simp [walk, resolve_offset]
  | cons k ks ih =>
    cases d with
    | val v => simp [walk, resolve_offset]
    | map es =>
      simp only [walk, resolve_offset]
      cases hl : lookupDoc es k with
      | none => simp
      | some sub => simp [ih sub, updateEntry_lookup_self hl]

/-- An offset: "an ordered list of keys identifying a path into a nested
document". -/
abbrev Offset := List String

/-- Kind of a scalar-valued search field (`string` or `double` in the schema's
`type:` entry; `string` when the entry is omitted, as for `platform`). -/
inductive ScalarKind where
  | string
  | double
  deriving DecidableEq, Repr

/-- Kind of a range-valued search field (`double-range` or `datetime-range`). -/
inductive RangeKind where
  | doubleRange
  | datetimeRange
  deriving DecidableEq, Repr

/-- Modelled from the spec: the validated shape of one field, "a tagged
variant per field kind (scalar vs. range) with an ordered list of path
candidates".  Scalar fields carry their candidate offsets; range fields carry
`min_offset` candidates and `max_offset` candidates. -/
inductive FieldType where
  | scalar (k : ScalarKind) (offsets : List Offset)
  | range (k : RangeKind) (minOffsets maxOffsets : List Offset)
  deriving DecidableEq, Repr

/-- Modelled from the spec: a validated FieldSpec — unique name within its
MetadataType, a typed offset layout, the `indexed` flag (default true) and a
human-readable description preserved as opaque text. -/
structure FieldSpec where
  name : String
  ftype : FieldType
  indexed : Bool
  description : String
  deriving DecidableEq, Repr

/-- Modelled from the spec: a loaded MetadataType — its name, description, the
seven fixed top-level path mappings of the schema's `dataset` object, and its
search fields. -/
structure MetadataType where
  name : String
  description : String
  id_path : Offset
  label_path : Offset
  format_path : Offset
  sources_path : Offset
  creation_dt_path : Offset
  grid_spatial_path : Offset
  measurements_path : Offset
  fields : List FieldSpec
  deriving DecidableEq, Repr

/-- One entry of a schema file's `search_fields` mapping, before validation:
every part except the name and description is optional, exactly as the YAML
grammar leaves it ("nested nullable-offset-list structure"). -/
structure RawField where
  name : String
  type? : Option String
  offset? : Option (List Offset)
  min_offset? : Option (List Offset)
  max_offset? : Option (List Offset)
  indexed? : Option Bool
  description : String
  deriving DecidableEq, Repr

/-- A schema file before validation: top-level `name`, `description`, the
`dataset` object's fixed path mappings and the `search_fields` entries in file
order (duplicate names still possible here). -/
structure RawSchema where
  name : String
  description : String
  id_path : Offset
  label_path : Offset
  format_path : Offset
  sources_path : Offset
  creation_dt_path : Offset
  grid_spatial_path : Offset
  measurements_path : Offset
  search_fields : List RawField
  deriving DecidableEq, Repr

/-- The `type:` value assumed when a raw field omits it. -/
def defaultTypeName : String := "string"

/-- Canonical `type:` string of a scalar kind. -/
def scalarKindName : ScalarKind → String
  | ScalarKind.string => "string"
  | ScalarKind.double => "double"

/-- Canonical `type:` string of a range kind. -/
def rangeKindName : RangeKind → String
  | RangeKind.doubleRange => "double-range"
  | RangeKind.datetimeRange => "datetime-range"

/-- Modelled from the spec: a scalar field must declare a non-empty candidate
offset list ("one or more candidate offsets"). -/
def reqOffsets (f : RawField) : Except String (List Offset) :=
  match f.offset? with
  | some (o :: os) => Except.ok (o :: os)
  | _ => Except.error ("field " ++ f.name ++ ": scalar field needs a non-empty offset list")

/-- Modelled from the spec: a range field must declare non-empty `min_offset`
and `max_offset` candidate lists; a range field missing either is "rejected at
MetadataType load time". -/
def reqMinMax (f : RawField) : Except String (List Offset × List Offset) :=
  match f.min_offset?, f.max_offset? with
  | some (o :: os), some (p :: ps) => Except.ok (o :: os, p :: ps)
  | _, _ =>
    Except.error ("field " ++ f.name ++ ": range field needs non-empty min_offset and max_offset lists")

/-- Modelled from the spec: read a raw field's declared kind (defaulting to
`string`) and check the offset lists the kind requires. -/
def parseFieldType (f : RawField) : Except String FieldType :=
  match f.type?.getD defaultTypeName with
  | "string" => (reqOffsets f).map (FieldType.scalar ScalarKind.string)
  | "double" => (reqOffsets f).map (FieldType.scalar ScalarKind.double)
  | "double-range" => (reqMinMax f).map (fun p => FieldType.range RangeKind.doubleRange p.1 p.2)
  | "datetime-range" => (reqMinMax f).map (fun p => FieldType.range RangeKind.datetimeRange p.1 p.2)
  | t => Except.error ("field " ++ f.name ++ ": unknown type " ++ t)

/-- Modelled from the spec: validate one raw search field; the `indexed` flag
defaults to true when omitted. -/
def loadField (f : RawField) : Except String FieldSpec :=
  match parseFieldType f with
  | Except.ok t =>
    Except.ok { name := f.name, ftype := t, indexed := f.indexed?.getD true,
                description := f.description }
  | Except.error e => Except.error e

/-- Validate every raw search field, in file order, stopping at the first
malformed one. -/
def loadFields : List RawField → Except String (List FieldSpec)
  | [] => Except.ok []
  | f :: fs =>
    match loadField f with
    | Except.error e => Except.error e
    | Except.ok s =>
      match loadFields fs with
      | Except.error e => Except.error e
      | Except.ok rest => Except.ok (s :: rest)

/-- The names of a raw schema's search fields, in file order. -/
def searchFieldNames (raw : RawSchema) : List String :=
  raw.search_fields.map RawField.name

/-- Load-time error for a schema whose `search_fields` use a name twice. -/
def duplicateNameError : String := "duplicate field name in search_fields"

/-- Modelled from the spec: deserialize a MetadataType from its schema
representation.  "Malformed schema (duplicate field names, range field missing
a min_offset/max_offset): rejected at MetadataType load time, fatal to that
load."  Loading takes no dataset document, so rejection happens before any
document resolution can be attempted. -/
def loadMetadataType (raw : RawSchema) : Except String MetadataType :=
  if (searchFieldNames raw).Nodup then
    match loadFields raw.search_fields with
    | Except.error e => Except.error e
    | Except.ok fs =>
      Except.ok { name := raw.name, description := raw.description,
                  id_path := raw.id_path, label_path := raw.label_path,
                  format_path := raw.format_path, sources_path := raw.sources_path,
                  creation_dt_path := raw.creation_dt_path,
                  grid_spatial_path := raw.grid_spatial_path,
                  measurements_path := raw.measurements_path, fields := fs }
  else Except.error duplicateNameError

/-- Serialize one validated field back to schema form. -/
def serializeField (s : FieldSpec) : RawField :=
  match s.ftype with
  | FieldType.scalar k offs =>
    { name := s.name, type? := some (scalarKindName k), offset? := some offs,
      min_offset? := none, max_offset? := none, indexed? := some s.indexed,
      description := s.description }
  | FieldType.range k mins maxs =>
    { name := s.name, type? := some (rangeKindName k), offset? := none,
      min_offset? := some mins, max_offset? := some maxs, indexed? := some s.indexed,
      description := s.description }

/-- Serialize a loaded MetadataType back to schema form. -/
def serializeMetadataType (mt : MetadataType) : RawSchema :=
  { name := mt.name, description := mt.description,
    id_path := mt.id_path, label_path := mt.label_path,
    format_path := mt.format_path, sources_path := mt.sources_path,
    creation_dt_path := mt.creation_dt_path,
    grid_spatial_path := mt.grid_spatial_path,
    measurements_path := mt.measurements_path,
    search_fields := mt.fields.map serializeField }

/-- Modelled from the spec: one candidate offset yields a value when the walk
reaches a non-null scalar leaf ("first offset that resolves to a non-null
value wins"); reaching a mapping or a null leaf, or failing the walk, yields
nothing. -/
def resolveCandidate (d : Doc) (off : Offset) : Option JVal :=
  match resolve_offset d off with
  | some (Doc.val JVal.null) => none
  | some (Doc.val v) => some v
  | _ => none

/-- Modelled from the spec: "evaluate each candidate offset in declared order;
return the first resolved value; if none resolve, result is absent". -/
def firstResolved (d : Doc) : List Offset → Option JVal
  | [] => none
  | off :: rest =>
    match resolveCandidate d off with
    | some v => some v
    | none => firstResolved d rest

/-- Whether a character list is one or more decimal digits (a fractional
part). -/
def fracDigits : List Char → Bool
  | [] => false
  | c :: cs => c.isDigit && cs.all Char.isDigit

/-- Consume an integer part then an optional fractional part: digits (at
least one, tracked by `seen`), optionally followed by a decimal point and
`fracDigits`. -/
def intThenFrac : List Char → Bool → Bool
  | [], seen => seen
  | c :: cs, seen =>
    if c.isDigit then intThenFrac cs true
    else if c == Char.ofNat 46 then seen && fracDigits cs
    else false

/-- Modelled from the spec: the syntax a string must have to be "parsed as a
floating-point number" — an optional minus sign, digits, and an optional
fractional part. -/
def isNumericString (s : String) : Bool :=
  match s.toList with
  | [] => false
  | c :: cs => if c == Char.ofNat 45 then intThenFrac cs false else intThenFrac (c :: cs) false

/-- Modelled from the spec: coercion of a resolved raw value to the `double`
kind.  Numbers pass; a string passes exactly when it has numeric syntax; null
never reaches coercion.  The model keeps the accepted raw value (it proves
parseability, it does not do float arithmetic). -/
def coerceDouble : JVal → Option JVal
  | JVal.num n => some (JVal.num n)
  | JVal.str s => if isNumericString s then some (JVal.str s) else none
  | JVal.null => none

/-- Modelled from the spec: the syntax a string must have to be "parsed as a
timestamp" — an ISO date prefix `YYYY-MM-DD`. -/
def isDatetimeString (s : String) : Bool :=
  match s.toList with
  | y1 :: y2 :: y3 :: y4 :: c1 :: m1 :: m2 :: c2 :: d1 :: d2 :: _ =>
    [y1, y2, y3, y4, m1, m2, d1, d2].all Char.isDigit
      && c1 == Char.ofNat 45 && c2 == Char.ofNat 45
  | _ => false

/-- Modelled from the spec: coercion of a resolved raw value to a timestamp. -/
def coerceDatetime : JVal → Option JVal
  | JVal.str s => if isDatetimeString s then some (JVal.str s) else none
  | _ => none

/-- Coercion demanded by a scalar kind: `string` accepts any resolved value,
`double` demands numeric syntax. -/
def coerceScalar : ScalarKind → JVal → Option JVal
  | ScalarKind.string, v => some v
  | ScalarKind.double, v => coerceDouble v

/-- Coercion demanded by a range kind on each bound. -/
def coerceRange : RangeKind → JVal → Option JVal
  | RangeKind.doubleRange, v => coerceDouble v
  | RangeKind.datetimeRange, v => coerceDatetime v

/-- A resolved field value: a scalar (possibly absent) or a pair of bounds
(each independently possibly absent). -/
inductive Resolved where
  | scalar (v : Option JVal)
  | range (lo hi : Option JVal)
  deriving DecidableEq, Repr

/-- Modelled from the spec: the outcome of resolving one field — a value (or
explicit absence), or a field-level data-quality error ("a value present but
not parseable as the declared kind is a data-quality error, reported to the
caller, not silently dropped"). -/
inductive FieldResult where
  | ok (r : Resolved)
  | err (msg : String)
  deriving DecidableEq, Repr

/-- Apply a kind's coercion to an optional resolved value: absence stays
absence; a present value that fails coercion is a reported error. -/
def coerceOpt (c : JVal → Option JVal) (fieldName : String) :
    Option JVal → Except String (Option JVal)
  | none => Except.ok none
  | some v =>
    match c v with
    | some w => Except.ok (some w)
    | none => Except.error ("field " ++ fieldName ++ ": value fails declared-kind coercion")

/-- Modelled from the spec: `resolve_field(document, field_spec)`.  Scalar
fields take the first resolved candidate and coerce it; range fields resolve
the `min_offset` and `max_offset` candidate lists independently by the same
first-match rule and coerce each bound, absence of one bound never blocking
the other. -/
def resolve_field (d : Doc) (f : FieldSpec) : FieldResult :=
  match f.ftype with
  | FieldType.scalar k offs =>
    match coerceOpt (coerceScalar k) f.name (firstResolved d offs) with
    | Except.ok v => FieldResult.ok (Resolved.scalar v)
    | Except.error e => FieldResult.err e
  | FieldType.range k mins maxs =>
    match coerceOpt (coerceRange k) f.name (firstResolved d mins),
          coerceOpt (coerceRange k) f.name (firstResolved d maxs) with
    | Except.ok lo, Except.ok hi => FieldResult.ok (Resolved.range lo hi)
    | Except.error e, _ => FieldResult.err e
    | _, Except.error e => FieldResult.err e

/-- Modelled from the spec: `resolve_all(document, metadata_type)` — one entry
per FieldSpec, in declared order, carrying the field's name, its `indexed`
flag (so an index builder can exclude non-indexed fields) and its result,
present even when the field resolved to absence. -/
def resolve_all (mt : MetadataType) (d : Doc) : List (String × Bool × FieldResult) :=
  mt.fields.map (fun f => (f.name, f.indexed, resolve_field d f))

/-- Candidate resolution in state-transformer style: it uses `walk`, so it
also returns the document after the walk. -/
def resolveCandidateW (d : Doc) (off : Offset) : Option JVal × Doc :=
  match walk d off with
  | (some (Doc.val JVal.null), d') => (none, d')
  | (some (Doc.val v), d') => (some v, d')
  | (_, d') => (none, d')

/-- First-match candidate evaluation in state-transformer style, threading the
document through every candidate's walk. -/
def firstResolvedW (d : Doc) : List Offset → Option JVal × Doc
  | [] => (none, d)
  | off :: rest =>
    match resolveCandidateW d off with
    | (some v, d') => (some v, d')
    | (none, d') => firstResolvedW d' rest

/-- Field resolution in state-transformer style, threading the document
through the offset walks of both bounds. -/
def resolve_fieldW (d : Doc) (f : FieldSpec) : FieldResult × Doc :=
  match f.ftype with
  | FieldType.scalar k offs =>
    match firstResolvedW d offs with
    | (r, d') =>
      match coerceOpt (coerceScalar k) f.name r with
      | Except.ok v => (FieldResult.ok (Resolved.scalar v), d')
      | Except.error e => (FieldResult.err e, d')
  | FieldType.range k mins maxs =>
    match firstResolvedW d mins with
    | (rlo, d1) =>
      match firstResolvedW d1 maxs with
      | (rhi, d2) =>
        match coerceOpt (coerceRange k) f.name rlo, coerceOpt (coerceRange k) f.name rhi with
        | Except.ok lo, Except.ok hi => (FieldResult.ok (Resolved.range lo hi), d2)
        | Except.error e, _ => (FieldResult.err e, d2)
        | _, Except.error e => (FieldResult.err e, d2)

/-- Whole-schema resolution in state-transformer style, threading the document
through every field. -/
def resolveFieldsW : List FieldSpec → Doc → List (String × Bool × FieldResult) × Doc
  | [], d => ([], d)
  | f :: fs, d =>
    match resolve_fieldW d f with
    | (r, d1) =>
      match resolveFieldsW fs d1 with
      | (rs, d2) => ((f.name, f.indexed, r) :: rs, d2)

/-- `resolve_all` in state-transformer style, returning the document and the
schema alongside the output. -/
def resolve_allW (mt : MetadataType) (d : Doc) :
    List (String × Bool × FieldResult) × Doc × MetadataType :=
  match resolveFieldsW mt.fields d with
  | (out, d') => (out, d', mt)

theorem resolveCandidateW_frame (d : Doc) (off : Offset) :
    resolveCandidateW d off = (resolveCandidate d off, d) := by
  unfold resolveCandidateW resolveCandidate
  rw [walk_frame]
  cases hres : resolve_offset d off with
  | none => rfl
  | some v =>
    cases v with
    | val w => cases w <;> rfl
    | map es => rfl

theorem firstResolvedW_frame (d : Doc) (offs : List Offset) :
    firstResolvedW d offs = (firstResolved d offs, d) := by
  induction offs with
  | nil => rfl
  | cons off rest ih =>
    unfold firstResolvedW firstResolved
    rw [resolveCandidateW_frame]
    cases resolveCandidate d off with
    | none => exact ih
    | some v => rfl

theorem resolve_fieldW_frame (d : Doc) (f : FieldSpec) :
    resolve_fieldW d f = (resolve_field d f, d) := by
  cases hft : f.ftype with
  | scalar k offs =>
    simp only [resolve_fieldW, resolve_field, hft, firstResolvedW_frame]
    cases coerceOpt (coerceScalar k) f.name (firstResolved d offs) <;> rfl
  | range k mins maxs =>
    simp only [resolve_fieldW, resolve_field, hft, firstResolvedW_frame]
    cases coerceOpt (coerceRange k) f.name (firstResolved d mins) <;>
      cases coerceOpt (coerceRange k) f.name (firstResolved d maxs) <;> rfl

theorem resolveFieldsW_frame (fs : List FieldSpec) (d : Doc) :
    resolveFieldsW fs d = (fs.map (fun f => (f.name, f.indexed, resolve_field d f)), d) := by
  induction fs with
  | nil => rfl
  | cons f fs ih =>
    simp only [resolveFieldsW, resolve_fieldW_frame, ih, List.map]

/-- C7: resolution never mutates the dataset document or the MetadataType and
has no other effect.  Each resolver, written as a state transformer on the
document (and, for `resolve_all`, the schema), returns the untouched input
document and schema together with exactly the value of the corresponding pure
function of the (document, schema) pair. -/
theorem resolution_is_pure (mt : MetadataType) (d : Doc) (f : FieldSpec) (off : List String) :
    walk d off = (resolve_offset d off, d) ∧
      resolve_fieldW d f = (resolve_field d f, d) ∧
      resolve_allW mt d = (resolve_all mt d, d, mt) := by
  refine ⟨walk_frame d off, resolve_fieldW_frame d f, ?_⟩
  unfold resolve_allW resolve_all
  rw [resolveFieldsW_frame]

/-- A raw scalar field of kind `double` at `properties.<key>` with
`indexed: false` and the placeholder description the schema gives every such
field; the shipped schema's many `TODO:`-documented fields all have this
shape. -/
def todoDouble (nm key : String) : RawField :=
  { name := nm, type? := some "double", offset? := some [["properties", key]],
    min_offset? := none, max_offset? := none, indexed? := some false,
    description := "TODO: <" ++ key ++ ">" }

/-- The shipped schema `eo3_landsat_ard.odc-type.yaml`, transcribed in file
order. -/
def eo3_landsat_ard : RawSchema :=
  { name := "eo3_landsat_ard",
    description := "EO3 for ARD Landsat Collection 3",
    id_path := ["id"],
    label_path := ["label"],
    format_path := ["properties", "odc:file_format"],
    sources_path := ["lineage", "source_datasets"],
    creation_dt_path := ["properties", "odc:processing_datetime"],
    grid_spatial_path := ["grid_spatial", "projection"],
    measurements_path := ["measurements"],
    search_fields :=
      [ { name := "gqa", type? := some "double",
          offset? := some [["properties", "gqa:cep90"]],
          min_offset? := none, max_offset? := none, indexed? := none,
          description := "GQA Circular error probable (90%)" },
        { name := "lat", type? := some "double-range", offset? := none,
          min_offset? := some [["extent", "lat", "begin"]],
          max_offset? := some [["extent", "lat", "end"]],
          indexed? := none, description := "Latitude range" },
        { name := "lon", type? := some "double-range", offset? := none,
          min_offset? := some [["extent", "lon", "begin"]],
          max_offset? := some [["extent", "lon", "end"]],
          indexed? := none, description := "Longitude range" },
        { name := "time", type? := some "datetime-range", offset? := none,
          min_offset? := some [["properties", "dtr:start_datetime"], ["properties", "datetime"]],
          max_offset? := some [["properties", "dtr:end_datetime"], ["properties", "datetime"]],
          indexed? := none, description := "Acquisition time range" },
        { name := "eo_gsd", type? := some "double",
          offset? := some [["properties", "eo:gsd"]],
          min_offset? := none, max_offset? := none, indexed? := some false,
          description := "Ground sample distance, meters" },
        { name := "platform", type? := none,
          offset? := some [["properties", "eo:platform"]],
          min_offset? := none, max_offset? := none, indexed? := some false,
          description := "Platform code" },
        todoDouble "gqa_abs_x" "gqa:abs_x",
        todoDouble "gqa_abs_y" "gqa:abs_y",
        todoDouble "gqa_cep90" "gqa:cep90",
        todoDouble "fmask_snow" "fmask:snow",
        todoDouble "gqa_abs_xy" "gqa:abs_xy",
        todoDouble "gqa_mean_x" "gqa:mean_x",
        todoDouble "gqa_mean_y" "gqa:mean_y",
        { name := "instrument", type? := none,
          offset? := some [["properties", "eo:instrument"]],
          min_offset? := none, max_offset? := none, indexed? := some false,
          description := "Instrument name" },
        { name := "cloud_cover", type? := some "double",
          offset? := some [["properties", "eo:cloud_cover"]],
          min_offset? := none, max_offset? := none, indexed? := none,
          description := "Cloud cover percentage [0, 100]" },
        todoDouble "fmask_clear" "fmask:clear",
        todoDouble "fmask_water" "fmask:water",
        todoDouble "gqa_mean_xy" "gqa:mean_xy",
        { name := "region_code", type? := none,
          offset? := some [["properties", "odc:region_code"]],
          min_offset? := none, max_offset? := none, indexed? := none,
          description := "Spatial reference code from the provider. For Landsat region_code is a scene path row:\n        \x27\x7b:03d\x7d\x7b:03d\x7d.format(path,row)\x27\nFor Sentinel it is MGRS code. In general it is a unique string identifier that datasets covering roughly the same spatial region share.\n" },
        todoDouble "gqa_stddev_x" "gqa:stddev_x",
        todoDouble "gqa_stddev_y" "gqa:stddev_y",
        todoDouble "gqa_stddev_xy" "gqa:stddev_xy",
        todoDouble "eo_sun_azimuth" "eo:sun_azimuth",
        { name := "product_family", type? := none,
          offset? := some [["properties", "odc:product_family"]],
          min_offset? := none, max_offset? := none, indexed? := some false,
          description := "Product family code" },
        { name := "dataset_maturity", type? := none,
          offset? := some [["properties", "dea:dataset_maturity"]],
          min_offset? := none, max_offset? := none, indexed? := none,
          description := "One of - final|interim|nrt  (near real time)" },
        todoDouble "eo_sun_elevation" "eo:sun_elevation",
        todoDouble "fmask_cloud_shadow" "fmask:cloud_shadow",
        todoDouble "gqa_iterative_mean_x" "gqa:iterative_mean_x",
        todoDouble "gqa_iterative_mean_y" "gqa:iterative_mean_y",
        todoDouble "gqa_iterative_mean_xy" "gqa:iterative_mean_xy",
        todoDouble "gqa_iterative_stddev_x" "gqa:iterative_stddev_x",
        todoDouble "gqa_iterative_stddev_y" "gqa:iterative_stddev_y",
        todoDouble "gqa_iterative_stddev_xy" "gqa:iterative_stddev_xy",
        todoDouble "gqa_abs_iterative_mean_x" "gqa:abs_iterative_mean_x",
        todoDouble "gqa_abs_iterative_mean_y" "gqa:abs_iterative_mean_y",
        todoDouble "gqa_abs_iterative_mean_xy" "gqa:abs_iterative_mean_xy" ] }

/-- The shipped schema's `time` entry, as the YAML declares it. -/
def timeRaw : RawField :=
  { name := "time", type? := some "datetime-range", offset? := none,
    min_offset? := some [["properties", "dtr:start_datetime"], ["properties", "datetime"]],
    max_offset? := some [["properties", "dtr:end_datetime"], ["properties", "datetime"]],
    indexed? := none, description := "Acquisition time range" }

/-- The `time` FieldSpec obtained by loading the schema's `time` entry. -/
def timeField : FieldSpec :=
  { name := "time",
    ftype := FieldType.range RangeKind.datetimeRange
      [["properties", "dtr:start_datetime"], ["properties", "datetime"]]
      [["properties", "dtr:end_datetime"], ["properties", "datetime"]],
    indexed := true, description := "Acquisition time range" }

/-- A document lacking `properties.dtr:start_datetime` but carrying
`properties.datetime = "2018-01-03"`. -/
def timeDoc : Doc :=
  Doc.map [("properties", Doc.map [("datetime", Doc.val (JVal.str "2018-01-03"))])]

theorem coerceOpt_ok {c : JVal → Option JVal} {nm : String} {o v : Option JVal}
    (h : coerceOpt c nm o = Except.ok v) : v = o.bind c := by
  cases o with
  | none => simp only [coerceOpt, Except.ok.injEq] at h; simp [← h]
  | some w =>
    simp only [coerceOpt] at h
    cases hc : c w with
    | none => rw [hc] at h; exact absurd h (by simp)
    | some u => rw [hc] at h; simp only [Except.ok.injEq] at h; simp [← h, hc]

/-- C2: `resolve_field` evaluates candidate offsets in declared order — when
the first candidate resolves, its value is returned whatever the remaining
candidates (which could resolve to different values) would give; and for the
shipped schema's `time` field, a document lacking
`properties.dtr:start_datetime` but having `properties.datetime` resolves the
min bound to the `properties.datetime` value. -/
theorem resolve_field_offset_priority :
    (∀ (d : Doc) (v : JVal) (off : Offset) (rest : List Offset),
        resolveCandidate d off = some v → firstResolved d (off :: rest) = some v) ∧
      (∀ (d : Doc) (nm ds : String) (k : ScalarKind) (offs : List Offset) (ix : Bool),
        (∃ e, resolve_field d ⟨nm, FieldType.scalar k offs, ix, ds⟩ = FieldResult.err e) ∨
          resolve_field d ⟨nm, FieldType.scalar k offs, ix, ds⟩ =
            FieldResult.ok (Resolved.scalar ((firstResolved d offs).bind (coerceScalar k)))) ∧
      timeRaw ∈ eo3_landsat_ard.search_fields ∧
      loadField timeRaw = Except.ok timeField ∧
      resolve_offset timeDoc ["properties", "dtr:start_datetime"] = none ∧
      resolve_field timeDoc timeField =
        FieldResult.ok
          (Resolved.range (some (JVal.str "2018-01-03")) (some (JVal.str "2018-01-03"))) := by
  refine ⟨?_, ?_, by decide, rfl, rfl, rfl⟩
  · intro d v off rest h
    unfold firstResolved
    rw [h]
  · intro d nm ds k offs ix
    simp only [resolve_field]
    cases hr : coerceOpt (coerceScalar k) nm (firstResolved d offs) with
    | error e => exact Or.inl ⟨e, rfl⟩
    | ok v => exact Or.inr (by rw [coerceOpt_ok hr])

/-- The shipped schema's `lat` entry, as the YAML declares it. -/
def latRaw : RawField :=
  { name := "lat", type? := some "double-range", offset? := none,
    min_offset? := some [["extent", "lat", "begin"]],
    max_offset? := some [["extent", "lat", "end"]],
    indexed? := none, description := "Latitude range" }

/-- The `lat` FieldSpec obtained by loading the schema's `lat` entry. -/
def latField : FieldSpec :=
  { name := "lat",
    ftype := FieldType.range RangeKind.doubleRange
      [["extent", "lat", "begin"]] [["extent", "lat", "end"]],
    indexed := true, description := "Latitude range" }

/-- A document carrying only the max-side bound `extent.lat.end`. -/
def latDoc : Doc :=
  Doc.map [("extent", Doc.map [("lat", Doc.map [("end", Doc.val (JVal.num 5))])])]

/-- C3: a range-typed field resolves its `min_offset` and `max_offset`
candidate lists independently by the first-match rule — unless a present bound
fails coercion, the result is exactly the pair of the two independently
first-matched (and coerced) bounds, each possibly absent on its own — and the
shipped `lat` field on a document carrying only `extent.lat.end` yields
`(absent, max value)`, not total absence. -/
theorem range_bounds_independent :
    (∀ (d : Doc) (nm : String) (k : RangeKind) (mins maxs : List Offset) (ix : Bool)
        (ds : String),
        (∃ e, resolve_field d ⟨nm, FieldType.range k mins maxs, ix, ds⟩ = FieldResult.err e) ∨
          resolve_field d ⟨nm, FieldType.range k mins maxs, ix, ds⟩ =
            FieldResult.ok
              (Resolved.range ((firstResolved d mins).bind (coerceRange k))
                ((firstResolved d maxs).bind (coerceRange k)))) ∧
      latRaw ∈ eo3_landsat_ard.search_fields ∧
      loadField latRaw = Except.ok latField ∧
      resolve_field latDoc latField =
        FieldResult.ok (Resolved.range none (some (JVal.num 5))) := by
  refine ⟨?_, by decide, rfl, rfl⟩
  intro d nm k mins maxs ix ds
  simp only [resolve_field]
  cases hlo : coerceOpt (coerceRange k) nm (firstResolved d mins) with
  | error e =>
    cases hhi : coerceOpt (coerceRange k) nm (firstResolved d maxs) with
    | error e2 => exact Or.inl ⟨e, rfl⟩
    | ok hi => exact Or.inl ⟨e, rfl⟩
  | ok lo =>
    cases hhi : coerceOpt (coerceRange k) nm (firstResolved d maxs) with
    | error e => exact Or.inl ⟨e, rfl⟩
    | ok hi => exact Or.inr (by rw [coerceOpt_ok hlo, coerceOpt_ok hhi])

/-- C4: for every MetadataType and document, `resolve_all` returns exactly one
entry per declared FieldSpec, in declaration order and under the FieldSpec's
name, whether or not the field resolved to a value. -/
theorem resolve_all_one_entry_per_field (mt : MetadataType) (d : Doc) :
    (resolve_all mt d).map Prod.fst = mt.fields.map FieldSpec.name := by
  simp [resolve_all, List.map_map, Function.comp]

theorem reqMinMax_error {f : RawField} (hmm : f.min_offset? = none ∨ f.max_offset? = none) :
    ∃ e, reqMinMax f = Except.error e := by
  unfold reqMinMax
  rcases hmm with h | h
  · rw [h]
    cases f.max_offset? with
    | none => exact ⟨_, rfl⟩
    | some l => cases l <;> exact ⟨_, rfl⟩
  · rw [h]
    cases f.min_offset? with
    | none => exact ⟨_, rfl⟩
    | some l => cases l <;> exact ⟨_, rfl⟩

theorem loadField_range_missing {f : RawField}
    (hty : f.type? = some "double-range" ∨ f.type? = some "datetime-range")
    (hmm : f.min_offset? = none ∨ f.max_offset? = none) :
    ∃ e, loadField f = Except.error e := by
  obtain ⟨e, he⟩ := reqMinMax_error hmm
  have hpt : parseFieldType f = Except.error e := by
    unfold parseFieldType
    rcases hty with h | h <;> rw [h] <;> simp [Option.getD, he, Except.map]
  exact ⟨e, by unfold loadField; rw [hpt]⟩

theorem loadFields_error_of_mem {fs : List RawField} {f : RawField} {e : String}
    (hmem : f ∈ fs) (herr : loadField f = Except.error e) :
    ∃ e2, loadFields fs = Except.error e2 := by
  induction fs with
  | nil => cases hmem
  | cons g gs ih =>
    rcases List.mem_cons.mp hmem with h | h
    · subst h
      exact ⟨e, by unfold loadFields; rw [herr]⟩
    · cases hg : loadField g with
      | error e3 => exact ⟨e3, by unfold loadFields; rw [hg]⟩
      | ok s =>
        obtain ⟨e2, h2⟩ := ih h
        exact ⟨e2, by unfold loadFields; rw [hg, h2]⟩

/-- C5: a schema whose `search_fields` reuse a name, or whose range-typed
field omits its `min_offset` or `max_offset` list, is rejected with an error
by `loadMetadataType`; loading takes no dataset document, so the rejection
precedes any document resolution. -/
theorem load_rejects_malformed_schema :
    (∀ raw : RawSchema, ¬ (searchFieldNames raw).Nodup →
        loadMetadataType raw = Except.error duplicateNameError) ∧
      (∀ (raw : RawSchema) (f : RawField), f ∈ raw.search_fields →
        (f.type? = some "double-range" ∨ f.type? = some "datetime-range") →
        (f.min_offset? = none ∨ f.max_offset? = none) →
        ∃ e, loadMetadataType raw = Except.error e) := by
  constructor
  · intro raw hdup
    unfold loadMetadataType
    rw [if_neg hdup]
  · intro raw f hmem hty hmm
    by_cases hdup : (searchFieldNames raw).Nodup
    · obtain ⟨e, he⟩ := loadField_range_missing hty hmm
      obtain ⟨e2, h2⟩ := loadFields_error_of_mem hmem he
      exact ⟨e2, by unfold loadMetadataType; rw [if_pos hdup, h2]⟩
    · exact ⟨duplicateNameError, by unfold loadMetadataType; rw [if_neg hdup]⟩

/-- Every field of the MetadataType contributes its own entry to
`resolve_all`, computed from that field alone. -/
theorem resolve_field_mem_resolve_all (mt : MetadataType) (d : Doc) (f : FieldSpec)
    (hf : f ∈ mt.fields) : (f.name, f.indexed, resolve_field d f) ∈ resolve_all mt d := by
  unfold resolve_all
  exact List.mem_map_of_mem _ hf

/-- The shipped schema's `gqa` entry, as the YAML declares it. -/
def gqaRawField : RawField :=
  { name := "gqa", type? := some "double", offset? := some [["properties", "gqa:cep90"]],
    min_offset? := none, max_offset? := none, indexed? := none,
    description := "GQA Circular error probable (90%)" }

/-- The `gqa` FieldSpec obtained by loading the schema's `gqa` entry. -/
def gqaFieldSpec : FieldSpec :=
  { name := "gqa", ftype := FieldType.scalar ScalarKind.double [["properties", "gqa:cep90"]],
    indexed := true, description := "GQA Circular error probable (90%)" }

/-- The `platform` FieldSpec obtained by loading the schema's `platform`
entry. -/
def platformFieldSpec : FieldSpec :=
  { name := "platform", ftype := FieldType.scalar ScalarKind.string [["properties", "eo:platform"]],
    indexed := false, description := "Platform code" }

/-- A document whose `properties.gqa:cep90` holds a string that is not
numeric, next to a well-formed `properties.eo:platform`. -/
def gqaBadDoc : Doc :=
  Doc.map [("properties", Doc.map
    [("gqa:cep90", Doc.val (JVal.str "not-a-number")),
     ("eo:platform", Doc.val (JVal.str "landsat-8"))])]

/-- A two-field MetadataType used to exercise one field's coercion error next
to another field's successful resolution. -/
def gqaMiniType : MetadataType :=
  { name := "mini", description := "two shipped fields",
    id_path := ["id"], label_path := ["label"],
    format_path := ["properties", "odc:file_format"],
    sources_path := ["lineage", "source_datasets"],
    creation_dt_path := ["properties", "odc:processing_datetime"],
    grid_spatial_path := ["grid_spatial", "projection"],
    measurements_path := ["measurements"],
    fields := [gqaFieldSpec, platformFieldSpec] }

/-- C6: a candidate value that is present but fails the declared kind's
coercion makes `resolve_field` report a field-level data-quality error (for a
scalar `double` field, and for either bound of a range field), never silent
absence; and `resolve_all` still gives every other field its own
independently computed entry — concretely, the shipped `gqa` field errors on a
non-numeric string while `platform` still resolves in the same
`resolve_all`. -/
theorem coercion_failure_reported :
    (∀ (d : Doc) (nm ds : String) (offs : List Offset) (ix : Bool) (v : JVal),
        firstResolved d offs = some v → coerceDouble v = none →
        ∃ e, resolve_field d ⟨nm, FieldType.scalar ScalarKind.double offs, ix, ds⟩ =
          FieldResult.err e) ∧
      (∀ (d : Doc) (nm ds : String) (k : RangeKind) (mins maxs : List Offset) (ix : Bool)
          (v : JVal),
        (firstResolved d mins = some v ∨ firstResolved d maxs = some v) →
        coerceRange k v = none →
        ∃ e, resolve_field d ⟨nm, FieldType.range k mins maxs, ix, ds⟩ = FieldResult.err e) ∧
      gqaRawField ∈ eo3_landsat_ard.search_fields ∧
      loadField gqaRawField = Except.ok gqaFieldSpec ∧
      resolve_field gqaBadDoc gqaFieldSpec =
        FieldResult.err "field gqa: value fails declared-kind coercion" ∧
      resolve_all gqaMiniType gqaBadDoc =
        [("gqa", true, FieldResult.err "field gqa: value fails declared-kind coercion"),
         ("platform", false,
           FieldResult.ok (Resolved.scalar (some (JVal.str "landsat-8"))))] := by
  refine ⟨?_, ?_, by decide, rfl, rfl, rfl⟩
  · intro d nm ds offs ix v hv hc
    simp only [resolve_field, coerceOpt, coerceScalar, hv, hc]
    exact ⟨_, rfl⟩
  · intro d nm ds k mins maxs ix v hv hc
    rcases hv with h | h
    · have hmin : coerceOpt (coerceRange k) nm (firstResolved d mins) =
          Except.error ("field " ++ nm ++ ": value fails declared-kind coercion") := by
        simp only [coerceOpt, h, hc]
      simp only [resolve_field, hmin]
      cases coerceOpt (coerceRange k) nm (firstResolved d maxs) <;> exact ⟨_, rfl⟩
    · have hmax : coerceOpt (coerceRange k) nm (firstResolved d maxs) =
          Except.error ("field " ++ nm ++ ": value fails declared-kind coercion") := by
        simp only [coerceOpt, h, hc]
      simp only [resolve_field, hmax]
      cases coerceOpt (coerceRange k) nm (firstResolved d mins) <;> exact ⟨_, rfl⟩

/-- The shipped schema's `eo_gsd` entry, as the YAML declares it
(`indexed: false`). -/
def eoGsdRawField : RawField :=
  { name := "eo_gsd", type? := some "double", offset? := some [["properties", "eo:gsd"]],
    min_offset? := none, max_offset? := none, indexed? := some false,
    description := "Ground sample distance, meters" }

/-- The `eo_gsd` FieldSpec obtained by loading the schema's `eo_gsd` entry. -/
def eoGsdFieldSpec : FieldSpec :=
  { name := "eo_gsd", ftype := FieldType.scalar ScalarKind.double [["properties", "eo:gsd"]],
    indexed := false, description := "Ground sample distance, meters" }

/-- A document carrying `properties.eo:gsd = 30`. -/
def gsdDoc : Doc :=
  Doc.map [("properties", Doc.map [("eo:gsd", Doc.val (JVal.num 30))])]

/-- C8: a raw field that omits `indexed` loads with `indexed = true`; the flag
never changes what a field resolves to; and `resolve_all` still resolves
non-indexed fields, carrying each field's flag in its entry so an index
builder can exclude them — concretely the shipped `eo_gsd` field
(`indexed: false`) resolves exactly as its `indexed: true` variant would. -/
theorem indexed_default_and_only_marks :
    (∀ (f : RawField) (s : FieldSpec), f.indexed? = none → loadField f = Except.ok s →
        s.indexed = true) ∧
      (∀ (d : Doc) (nm ds : String) (t : FieldType) (b1 b2 : Bool),
        resolve_field d ⟨nm, t, b1, ds⟩ = resolve_field d ⟨nm, t, b2, ds⟩) ∧
      (∀ (mt : MetadataType) (d : Doc) (f : FieldSpec), f ∈ mt.fields →
        (f.name, f.indexed, resolve_field d f) ∈ resolve_all mt d) ∧
      eoGsdRawField ∈ eo3_landsat_ard.search_fields ∧
      loadField eoGsdRawField = Except.ok eoGsdFieldSpec ∧
      eoGsdFieldSpec.indexed = false ∧
      resolve_field gsdDoc eoGsdFieldSpec =
        resolve_field gsdDoc { eoGsdFieldSpec with indexed := true } ∧
      resolve_field gsdDoc eoGsdFieldSpec =
        FieldResult.ok (Resolved.scalar (some (JVal.num 30))) := by
  refine ⟨?_, ?_, resolve_field_mem_resolve_all, by decide, rfl, rfl, rfl, rfl⟩
  · intro f s hix hload
    unfold loadField at hload
    cases hpt : parseFieldType f with
    | error e => rw [hpt] at hload; exact absurd hload (by simp)
    | ok t =>
      rw [hpt] at hload
      simp only [Except.ok.injEq] at hload
      rw [← hload]
      simp [hix]
  · intro d nm ds t b1 b2
    rfl

/-- The shape a validated field's offset lists are guaranteed to have. -/
def WFty : FieldType → Prop
  | FieldType.scalar _ offs => offs ≠ []
  | FieldType.range _ mins maxs => mins ≠ [] ∧ maxs ≠ []

theorem reqOffsets_ok {f : RawField} {offs : List Offset}
    (h : reqOffsets f = Except.ok offs) : f.offset? = some offs ∧ offs ≠ [] := by
  unfold reqOffsets at h
  cases ho : f.offset? with
  | none => rw [ho] at h; exact absurd h (by simp)
  | some l =>
    cases l with
    | nil => rw [ho] at h; exact absurd h (by simp)
    | cons o os =>
      rw [ho] at h
      simp only [Except.ok.injEq] at h
      exact ⟨by rw [← h], by rw [← h]; simp⟩

theorem reqMinMax_ok {f : RawField} {p : List Offset × List Offset}
    (h : reqMinMax f = Except.ok p) :
    f.min_offset? = some p.1 ∧ f.max_offset? = some p.2 ∧ p.1 ≠ [] ∧ p.2 ≠ [] := by
  unfold reqMinMax at h
  cases hmin : f.min_offset? with
  | none => rw [hmin] at h; exact absurd h (by simp)
  | some l =>
    cases l with
    | nil =>
      rw [hmin] at h
      cases f.max_offset? with
      | none => exact absurd h (by simp)
      | some m => cases m <;> exact absurd h (by simp)
    | cons o os =>
      cases hmax : f.max_offset? with
      | none => rw [hmin, hmax] at h; exact absurd h (by simp)
      | some m =>
        cases m with
        | nil => rw [hmin, hmax] at h; exact absurd h (by simp)
        | cons q qs =>
          rw [hmin, hmax] at h
          simp only [Except.ok.injEq] at h
          refine ⟨?_, ?_, ?_, ?_⟩ <;> rw [← h] <;> simp

theorem parseFieldType_wf {f : RawField} {t : FieldType}
    (h : parseFieldType f = Except.ok t) : WFty t := by
  unfold parseFieldType at h
  split at h
  · cases hro : reqOffsets f with
    | error e => rw [hro] at h; exact absurd h (by simp [Except.map])
    | ok offs =>
      rw [hro] at h
      simp only [Except.map, Except.ok.injEq] at h
      rw [← h]
      exact (reqOffsets_ok hro).2
  · cases hro : reqOffsets f with
    | error e => rw [hro] at h; exact absurd h (by simp [Except.map])
    | ok offs =>
      rw [hro] at h
      simp only [Except.map, Except.ok.injEq] at h
      rw [← h]
      exact (reqOffsets_ok hro).2
  · cases hrm : reqMinMax f with
    | error e => rw [hrm] at h; exact absurd h (by simp [Except.map])
    | ok p =>
      rw [hrm] at h
      simp only [Except.map, Except.ok.injEq] at h
      rw [← h]
      exact ⟨(reqMinMax_ok hrm).2.2.1, (reqMinMax_ok hrm).2.2.2⟩
  · cases hrm : reqMinMax f with
    | error e => rw [hrm] at h; exact absurd h (by simp [Except.map])
    | ok p =>
      rw [hrm] at h
      simp only [Except.map, Except.ok.injEq] at h
      rw [← h]
      exact ⟨(reqMinMax_ok hrm).2.2.1, (reqMinMax_ok hrm).2.2.2⟩
  · exact absurd h (by simp)

theorem loadField_wf {f : RawField} {s : FieldSpec}
    (h : loadField f = Except.ok s) : WFty s.ftype := by
  unfold loadField at h
  cases hpt : parseFieldType f with
  | error e => rw [hpt] at h; exact absurd h (by simp)
  | ok t =>
    rw [hpt] at h
    simp only [Except.ok.injEq] at h
    rw [← h]
    exact parseFieldType_wf hpt

theorem loadField_name {f : RawField} {s : FieldSpec}
    (h : loadField f = Except.ok s) : s.name = f.name := by
  unfold loadField at h
  cases hpt : parseFieldType f with
  | error e => rw [hpt] at h; exact absurd h (by simp)
  | ok t => rw [hpt] at h; simp only [Except.ok.injEq] at h; rw [← h]

theorem serializeField_load {s : FieldSpec} (hwf : WFty s.ftype) :
    loadField (serializeField s) = Except.ok s := by
  obtain ⟨nm, t, ix, ds⟩ := s
  cases t with
  | scalar k offs =>
    cases offs with
    | nil => exact absurd hwf (by simp [WFty])
    | cons o os => cases k <;> rfl
  | range k mins maxs =>
    cases mins with
    | nil => exact absurd hwf.1 (by simp)
    | cons o os =>
      cases maxs with
      | nil => exact absurd hwf.2 (by simp)
      | cons q qs => cases k <;> rfl

theorem loadFields_names {fs : List RawField} {ss : List FieldSpec}
    (h : loadFields fs = Except.ok ss) :
    ss.map FieldSpec.name = fs.map RawField.name := by
  induction fs generalizing ss with
  | nil =>
    unfold loadFields at h
    simp only [Except.ok.injEq] at h
    rw [← h]
    rfl
  | cons f fs ih =>
    unfold loadFields at h
    cases hf : loadField f with
    | error e => rw [hf] at h; exact absurd h (by simp)
    | ok s =>
      rw [hf] at h
      cases hrest : loadFields fs with
      | error e => rw [hrest] at h; exact absurd h (by simp)
      | ok rest =>
        rw [hrest] at h
        simp only [Except.ok.injEq] at h
        rw [← h]
        simp [loadField_name hf, ih hrest]

theorem loadFields_wf {fs : List RawField} {ss : List FieldSpec}
    (h : loadFields fs = Except.ok ss) : ∀ s ∈ ss, WFty s.ftype := by
  induction fs generalizing ss with
  | nil =>
    unfold loadFields at h
    simp only [Except.ok.injEq] at h
    rw [← h]
    intro s hs
    cases hs
  | cons f fs ih =>
    unfold loadFields at h
    cases hf : loadField f with
    | error e => rw [hf] at h; exact absurd h (by simp)
    | ok s =>
      rw [hf] at h
      cases hrest : loadFields fs with
      | error e => rw [hrest] at h; exact absurd h (by simp)
      | ok rest =>
        rw [hrest] at h
        simp only [Except.ok.injEq] at h
        rw [← h]
        intro u hu
        rcases List.mem_cons.mp hu with hh | hh
        · rw [hh]; exact loadField_wf hf
        · exact ih hrest u hh

theorem loadFields_serialize {ss : List FieldSpec} (hwf : ∀ s ∈ ss, WFty s.ftype) :
    loadFields (ss.map serializeField) = Except.ok ss := by
  induction ss with
  | nil => rfl
  | cons s ss ih =>
    have hs := serializeField_load (hwf s (List.mem_cons_self s ss))
    have hrest := ih (fun u hu => hwf u (List.mem_cons_of_mem s hu))
    simp only [List.map]
    unfold loadFields
    rw [hs, hrest]

theorem serializeField_name (s : FieldSpec) : (serializeField s).name = s.name := by
  cases hft : s.ftype <;> simp [serializeField, hft]

/-- C9: a MetadataType that loaded successfully, serialized back to schema
form, loads again to exactly the same MetadataType (same field names, kinds,
offset candidate lists and indexed flags). -/
theorem load_serialize_roundtrip (raw : RawSchema) (mt : MetadataType)
    (h : loadMetadataType raw = Except.ok mt) :
    loadMetadataType (serializeMetadataType mt) = Except.ok mt := by
  unfold loadMetadataType at h
  by_cases hdup : (searchFieldNames raw).Nodup
  · rw [if_pos hdup] at h
    cases hlf : loadFields raw.search_fields with
    | error e => rw [hlf] at h; exact absurd h (by simp)
    | ok fs =>
      rw [hlf] at h
      simp only [Except.ok.injEq] at h
      have hfields : mt.fields = fs := by rw [← h]
      have hnames : searchFieldNames (serializeMetadataType mt) = searchFieldNames raw := by
        unfold searchFieldNames serializeMetadataType
        simp only [hfields, List.map_map]
        rw [show RawField.name ∘ serializeField = FieldSpec.name from funext serializeField_name]
        exact loadFields_names hlf
      have hload : loadFields (serializeMetadataType mt).search_fields = Except.ok fs := by
        unfold serializeMetadataType
        simp only [hfields]
        exact loadFields_serialize (loadFields_wf hlf)
      unfold loadMetadataType
      rw [hnames, if_pos hdup, hload, ← h]
      rfl
  · rw [if_neg hdup] at h
    exact absurd h (by simp)

/-- A tiny well-formed schema used to exercise the round-trip at a concrete
input. -/
def miniSchema : RawSchema :=
  { name := "mini", description := "round-trip fixture",
    id_path := ["id"], label_path := ["label"],
    format_path := ["properties", "odc:file_format"],
    sources_path := ["lineage", "source_datasets"],
    creation_dt_path := ["properties", "odc:processing_datetime"],
    grid_spatial_path := ["grid_spatial", "projection"],
    measurements_path := ["measurements"],
    search_fields := [gqaRawField, latRaw] }

/-- The MetadataType `miniSchema` loads to. -/
def miniLoaded : MetadataType :=
  { name := "mini", description := "round-trip fixture",
    id_path := ["id"], label_path := ["label"],
    format_path := ["properties", "odc:file_format"],
    sources_path := ["lineage", "source_datasets"],
    creation_dt_path := ["properties", "odc:processing_datetime"],
    grid_spatial_path := ["grid_spatial", "projection"],
    measurements_path := ["measurements"],
    fields := [gqaFieldSpec, latField] }

/-- Witness for C9: the round-trip theorem applied to a concrete schema. -/
theorem load_serialize_roundtrip_witness :
    loadMetadataType (serializeMetadataType miniLoaded) = Except.ok miniLoaded :=
  load_serialize_roundtrip miniSchema miniLoaded rfl

/-- Whether an optional candidate-offset list is present and non-empty. -/
def hasNonemptyOffsets : Option (List Offset) → Bool
  | some (_ :: _) => true
  | _ => false

/-- C10: the shipped `eo3_landsat_ard` schema satisfies every load-time
well-formedness rule, so loading it succeeds: its 36 search-field names are
pairwise distinct, every range-typed field declares non-empty `min_offset`
and `max_offset` candidate lists, and every scalar field declares a non-empty
`offset` candidate list. -/
theorem eo3_schema_well_formed :
    (∃ mt, loadMetadataType eo3_landsat_ard = Except.ok mt) ∧
      (searchFieldNames eo3_landsat_ard).Nodup ∧
      (searchFieldNames eo3_landsat_ard).length = 36 ∧
      ∀ f ∈ eo3_landsat_ard.search_fields,
        ((f.type? = some "double-range" ∨ f.type? = some "datetime-range") →
            hasNonemptyOffsets f.min_offset? = true ∧ hasNonemptyOffsets f.max_offset? = true) ∧
          ((f.type? = none ∨ f.type? = some "string" ∨ f.type? = some "double") →
            hasNonemptyOffsets f.offset? = true) := by
  refine ⟨⟨_, rfl⟩, by decide, by decide, by decide⟩

end Eo3
